import Mathlib

/-
Verification of the stale-price detection and confirmation pipeline
(src/trading/stale_price_detector.py, src/trading/security_validator.py,
src/trading/cleanup_recommendations.py).

Modelling conventions, shared by all definitions below:
- Prices are exact rationals. The Python scripts work with floats; the
  stated purpose of the PRICE_TOLERANCE comparison is to absorb float
  rounding noise, and the comparison logic itself is arithmetic on the
  values, which rationals represent exactly.
- Trading dates are natural numbers ordered as the date strings are.
- Volumes are natural numbers; average volume is a rational.
- Human-readable reason strings carry data through f-string formatting;
  they are modelled as tagged values (the Reason type) so that the
  identity and order of the messages is kept without reproducing the
  decimal formatting of the text.
- SQLite queries, file I/O and wall-clock timestamps are the external
  collaborators of the pipeline; functions receive the query results and
  the current day as arguments and return the state they would persist.
-/

namespace SPD

/-- Detector threshold: flag stocks under one dollar (PENNY_STOCK_THRESHOLD). -/
def PENNY_STOCK_THRESHOLD : ℚ := 1

/-- Detector threshold: likely delisted or worthless (EXTREME_PENNY_THRESHOLD). -/
def EXTREME_PENNY_THRESHOLD : ℚ := 1/100

/-- Consecutive same-price days needed to flag (STALE_DAYS_THRESHOLD). -/
def STALE_DAYS_THRESHOLD : Nat := 5

/-- Daily average volume cutoff (LOW_VOLUME_THRESHOLD). -/
def LOW_VOLUME_THRESHOLD : ℚ := 1000

/-- Float comparison tolerance (PRICE_TOLERANCE). -/
def PRICE_TOLERANCE : ℚ := 1/10000

/-- Business days a symbol must fail before appearing in the report
(CONSECUTIVE_FAILURES_REQUIRED). The detector module fixes it to 5; the
confirmation function below takes it as an argument so that statements about
other settings of the knob (claim C2 speaks of setting it to 1) refer to the
same code. -/
def CONSECUTIVE_FAILURES_REQUIRED : Nat := 5

/-- The adjacent-close comparison both scripts use:
abs(closes[i] - closes[i-1]) < PRICE_TOLERANCE. -/
def priceMatch (a b : ℚ) : Bool := |a - b| < PRICE_TOLERANCE

/-- The loop body of Check 1 in detect_stale_prices (and of the identical scan
in validate_security_status): prev is the close at the previous index, cur the
running consecutive_count, maxC the running max_consecutive. -/
def maxConsecutiveAux : ℚ → Nat → Nat → List ℚ → Nat
  | _, _, maxC, [] => maxC
  | prev, cur, maxC, c :: rest =>
      if priceMatch c prev then
        maxConsecutiveAux c (cur + 1) (max maxC (cur + 1)) rest
      else
        maxConsecutiveAux c 1 maxC rest

/-- Check 1 of detect_stale_prices: consecutive_count and max_consecutive start
at 1 and the loop runs over indices 1 .. len-1. -/
def max_consecutive (closes : List ℚ) : Nat :=
  match closes with
  | [] => 1
  | c :: rest => maxConsecutiveAux c 1 1 rest

/-- Length of the maximal matching extension of a block that currently ends at
price p: how many further elements the scan would absorb before a break. -/
def headBlock : ℚ → List ℚ → Nat
  | _, [] => 0
  | p, c :: rest => if priceMatch c p then 1 + headBlock c rest else 0

/-- Largest value of 1 + headBlock over all start positions in the list; 0 on
the empty list. -/
def maxStart : List ℚ → Nat
  | [] => 0
  | c :: rest => max (1 + headBlock c rest) (maxStart rest)

/-- A list all of whose adjacent pairs are within tolerance of each other
(each pair compared in the same orientation as the source loop). -/
def chainB : List ℚ → Bool
  | [] => true
  | [_] => true
  | a :: b :: rest => priceMatch b a && chainB (b :: rest)

/-- A list with no two adjacent closes within tolerance. -/
def strictlyChanging : List ℚ → Bool
  | [] => true
  | [_] => true
  | a :: b :: rest => !priceMatch b a && strictlyChanging (b :: rest)

/-- Risk tier of a flagged security. -/
inductive Risk
  | high
  | medium
  | low
deriving DecidableEq, Repr

/-- The risk_order mapping used as the first sort key of the report. -/
def risk_order : Risk → Nat
  | .high => 0
  | .medium => 1
  | .low => 2

/-- One human-readable reason message; the payload holds the data the source
interpolates into the text. -/
inductive Reason
  | extremePenny (price : ℚ)
  | pennyStock (price : ℚ)
  | staleRun (days : Nat)
  | zeroVol (days : Nat)
  | noRecentData
  | dataStopped (lastDate expected : Nat)
deriving DecidableEq, Repr

/-- The per-symbol record appended to stale_securities by detect_stale_prices.
The analysis_date wall-clock field is presentation metadata and is omitted. -/
structure Signal where
  symbol : String
  price : ℚ
  consecutive_days : Nat
  avg_volume : ℚ
  zero_volume_days : Nat
  risk_level : Risk
  reasons : List Reason
  is_penny_stock : Bool
  is_stale_price : Bool
  is_no_data : Bool
  last_date : Option Nat
deriving DecidableEq, Repr

/-- One row of the daily_prices query: (symbol, date, close, volume). -/
structure PriceRow where
  symbol : String
  rdate : Nat
  close : ℚ
  volume : Nat
deriving DecidableEq, Repr

/-- np.mean over the volume column (only applied to non-empty windows: the
caller skips symbols with fewer than 5 observations). -/
def avgVolume (volumes : List Nat) : ℚ :=
  (volumes.map (fun v => (v : ℚ))).sum / volumes.length

/-- The risk assessment if/elif chain of detect_stale_prices. -/
def riskLevel (is_extreme_penny : Bool) (zero_vol_days : Nat) (is_penny : Bool)
    (avg_volume : ℚ) (is_stale : Bool) : Risk :=
  if is_extreme_penny || decide (2 ≤ zero_vol_days) then .high
  else if is_penny && decide (avg_volume < LOW_VOLUME_THRESHOLD) then .high
  else if is_penny then .medium
  else if is_stale && decide (avg_volume < LOW_VOLUME_THRESHOLD) then .medium
  else .low

/-- The reason-list assembly of detect_stale_prices: extreme-penny message,
elif penny message; then stale-run message; then zero-volume message. -/
def buildReasons (is_extreme_penny is_penny : Bool) (last_price : ℚ)
    (max_consec : Nat) (is_stale : Bool) (zero_vol_days : Nat) : List Reason :=
  (if is_extreme_penny then [Reason.extremePenny last_price]
   else if is_penny then [Reason.pennyStock last_price] else [])
  ++ (if is_stale then [Reason.staleRun max_consec] else [])
  ++ (if 2 ≤ zero_vol_days then [Reason.zeroVol zero_vol_days] else [])

/-- The record appended to stale_securities for a symbol that passed the
stale-or-penny gate of the per-symbol loop: last price from closes[-1],
flags from the thresholds, risk and reasons from the chains above. -/
def mkDetSignal (sym : String) (dates : List Nat) (closes : List ℚ)
    (volumes : List Nat) : Signal :=
  let last_price := closes.getLastD 0
  let avg_volume := avgVolume volumes
  let mc := max_consecutive closes
  let is_stale := decide (STALE_DAYS_THRESHOLD ≤ mc)
  let is_penny := decide (last_price < PENNY_STOCK_THRESHOLD)
  let is_extreme_penny := decide (last_price < EXTREME_PENNY_THRESHOLD)
  let zero_vol_days := (volumes.filter (fun v => v == 0)).length
  { symbol := sym
    price := last_price
    consecutive_days := if is_stale then mc else 0
    avg_volume := avg_volume
    zero_volume_days := zero_vol_days
    risk_level := riskLevel is_extreme_penny zero_vol_days is_penny avg_volume is_stale
    reasons := buildReasons is_extreme_penny is_penny last_price mc is_stale zero_vol_days
    is_penny_stock := is_penny
    is_stale_price := is_stale
    is_no_data := false
    last_date := dates.getLast? }

/-- The body of the per-symbol loop of detect_stale_prices: skip below 5
observations, skip when neither stale nor penny, otherwise emit the signal
record. -/
def analyzeSymbol (sym : String) (dates : List Nat) (closes : List ℚ)
    (volumes : List Nat) : Option Signal :=
  if closes.length < 5 then none
  else if !decide (STALE_DAYS_THRESHOLD ≤ max_consecutive closes) &&
      !decide (closes.getLastD 0 < PENNY_STOCK_THRESHOLD) then none
  else some (mkDetSignal sym dates closes volumes)

/-- Signal for a watchlist symbol with no rows in the recent window. -/
def noDataSignal (sym : String) : Signal :=
  { symbol := sym
    price := 0
    consecutive_days := 0
    avg_volume := 0
    zero_volume_days := 0
    risk_level := .high
    reasons := [Reason.noRecentData]
    is_penny_stock := false
    is_stale_price := false
    is_no_data := true
    last_date := none }

/-- Signal for a watchlist symbol whose data stopped updating before the
recent cutoff date. -/
def dataStoppedSignal (sym : String) (closes : List ℚ) (volumes : List Nat)
    (sym_latest expected : Nat) : Signal :=
  { symbol := sym
    price := closes.getLastD 0
    consecutive_days := 0
    avg_volume := avgVolume volumes
    zero_volume_days := 0
    risk_level := .high
    reasons := [Reason.dataStopped sym_latest expected]
    is_penny_stock := false
    is_stale_price := false
    is_no_data := true
    last_date := some sym_latest }

/-- The keys of a Python dict built by insertion, in first-occurrence order. -/
def firstOccs : List String → List String
  | [] => []
  | s :: rest => s :: firstOccs (rest.filter (fun t => !(t == s)))
termination_by l => l.length
decreasing_by
  simp only [List.length_cons]
  exact Nat.lt_succ_of_le (List.length_filter_le _ _)

/-- The rows grouped under one symbol, in row order (the symbol_data dict). -/
def symbolRows (rows : List PriceRow) (sym : String) : List PriceRow :=
  rows.filter (fun r => r.symbol == sym)

/-- The key of the final sort of detect_stale_prices, as a comparator for the
stable merge sort that models the stable Python list sort: risk_order first,
then average volume ascending. -/
def detectSortLe (a b : Signal) : Bool :=
  decide (risk_order a.risk_level < risk_order b.risk_level) ||
  (risk_order a.risk_level == risk_order b.risk_level &&
    decide (a.avg_volume ≤ b.avg_volume))

/-- The stale/penny per-symbol loop of detect_stale_prices, over the symbols
of the grouped recent rows. -/
def detectLoop1 (rows : List PriceRow) : List Signal :=
  (firstOccs (rows.map (fun r => r.symbol))).filterMap (fun sym =>
    let data := symbolRows rows sym
    analyzeSymbol sym (data.map (fun r => r.rdate)) (data.map (fun r => r.close))
      (data.map (fun r => r.volume)))

/-- The 5th most recent date, used as cutoff for no-recent-data: falls back to
the last recent date when fewer than five exist. -/
def recentCutoff (recent_dates : List Nat) : Nat :=
  if 4 < recent_dates.length then recent_dates.getD 4 0 else recent_dates.getLastD 0

/-- Check 3 of detect_stale_prices: the no-data loop over the watchlist,
skipped entirely when the watchlist is empty. -/
def detectLoop3 (recent_dates : List Nat) (rows : List PriceRow)
    (watchlist : List String) : List Signal :=
  if watchlist.isEmpty then []
  else watchlist.filterMap (fun sym =>
    if sym ∈ firstOccs (rows.map (fun r => r.symbol)) then
      if ((symbolRows rows sym).map (fun r => r.rdate)).getLastD 0 <
          recentCutoff recent_dates then
        some (dataStoppedSignal sym ((symbolRows rows sym).map (fun r => r.close))
          ((symbolRows rows sym).map (fun r => r.volume))
          (((symbolRows rows sym).map (fun r => r.rdate)).getLastD 0)
          (recent_dates.getD 0 0))
      else none
    else some (noDataSignal sym))

/-- detect_stale_prices. The external inputs stand for the sources the script
reads: weekday is the weekday index of the current date (Monday 0), the
recent_dates the result of the DISTINCT-dates query (descending, at most 10),
rows the symbol/date/close/volume query result for dates since the earliest
recent date, watchlist the parsed watchlist file. Returns the full
pre-confirmation stale_securities list. -/
def detect_stale_prices (weekday : Nat) (recent_dates : List Nat)
    (rows : List PriceRow) (watchlist : List String) : List Signal :=
  if 5 ≤ weekday then []
  else if recent_dates.length < 5 then []
  else (detectLoop1 rows ++ detectLoop3 recent_dates rows watchlist).mergeSort detectSortLe

/-- The reason recorded in a tracking entry: either the joined reasons of the
flagging signal (the semicolon join is modelled by the list itself) or the
Recovered sentinel string. -/
inductive TrackReason
  | flagged (joined : List Reason)
  | recovered
deriving DecidableEq, Repr

/-- One value of the failure_counts mapping of the persisted tracking state. -/
structure TrackingEntry where
  count : Nat
  first_flagged : Nat
  reason : TrackReason
deriving DecidableEq, Repr

/-- The failure_counts dict: symbol-keyed, insertion-ordered, unique keys. -/
abbrev CountsMap := List (String × TrackingEntry)

/-- dict.get: the value stored under the first (only) occurrence of a key. -/
def mlookup (m : CountsMap) (k : String) : Option TrackingEntry :=
  (m.find? (fun p => p.1 == k)).map (fun p => p.2)

/-- dict assignment: overwrite in place when present, append when absent. -/
def dinsert : CountsMap → String → TrackingEntry → CountsMap
  | [], k, v => [(k, v)]
  | p :: rest, k, v => if p.1 == k then (k, v) :: rest else p :: dinsert rest k v

/-- dict.setdefault: insert only when the key is absent. -/
def dsetdefault : CountsMap → String → TrackingEntry → CountsMap
  | [], k, v => [(k, v)]
  | p :: rest, k, v => if p.1 == k then p :: rest else p :: dsetdefault rest k v

/-- The persisted tracking state (stale_tracking_state.json). -/
structure TrackingState where
  last_run : Option Nat
  failure_counts : CountsMap
deriving DecidableEq, Repr

/-- prev.get(count, 0): the tracked count of a symbol, 0 when untracked. -/
def countOf (m : CountsMap) (k : String) : Nat :=
  match mlookup m k with
  | some e => e.count
  | none => 0

/-- prev.get(first_flagged, today): the tracked first-flagged date of a
symbol, today when untracked. -/
def firstFlaggedOf (m : CountsMap) (k : String) (today : Nat) : Nat :=
  match mlookup m k with
  | some e => e.first_flagged
  | none => today

/-- The entry written for a flagged symbol: prior count (default 0) plus one,
prior first_flagged (default today), reason from the signal. -/
def flagEntry (prior : CountsMap) (today : Nat) (sig : Signal) : TrackingEntry :=
  { count := countOf prior sig.symbol + 1
    first_flagged := firstFlaggedOf prior sig.symbol today
    reason := .flagged sig.reasons }

/-- First loop of apply_failure_tracking: write an entry for every flagged
security into the fresh new_counts dict. -/
def insertFlagged (prior : CountsMap) (today : Nat) (acc : CountsMap) :
    List Signal → CountsMap
  | [] => acc
  | s :: rest => insertFlagged prior today (dinsert acc s.symbol (flagEntry prior today s)) rest

/-- Second loop of apply_failure_tracking: every previously tracked symbol not
flagged today is zeroed (not deleted) with the Recovered reason and its
first_flagged carried over. -/
def addRecovered (flagged_symbols : List String) : CountsMap → CountsMap → CountsMap
  | [], acc => acc
  | (sym, e) :: rest, acc =>
      if sym ∈ flagged_symbols then addRecovered flagged_symbols rest acc
      else addRecovered flagged_symbols rest
        (dsetdefault acc sym { count := 0, first_flagged := e.first_flagged, reason := .recovered })

/-- apply_failure_tracking: merge the signals of this run into the persisted
state and filter to securities with enough consecutive failures. required is
the CONSECUTIVE_FAILURES_REQUIRED constant, passed explicitly. Returns
(confirmed, saved state). The source also copies count and first_flagged onto
each confirmed record for display; the records themselves are unchanged. -/
def apply_failure_tracking (required : Nat) (state : TrackingState) (today : Nat)
    (stale_securities : List Signal) : List Signal × TrackingState :=
  let flagged_symbols := stale_securities.map (fun s => s.symbol)
  let afterFlagged := insertFlagged state.failure_counts today [] stale_securities
  let new_counts := addRecovered flagged_symbols state.failure_counts afterFlagged
  let newState : TrackingState := { last_run := some today, failure_counts := new_counts }
  let confirmed := stale_securities.filter
    (fun s => decide (required ≤ countOf new_counts s.symbol))
  (confirmed, newState)

/-- A sequence of eligible runs: each item holds the day of the run and the
signal list detection produced on that day; the persisted state is threaded
through apply_failure_tracking from run to run. -/
def runSequence (required : Nat) : TrackingState → List (Nat × List Signal) → TrackingState
  | st, [] => st
  | st, r :: rest => runSequence required (apply_failure_tracking required st r.1 r.2).2 rest

/-- The summary section and securities list of the report document. The
recommendations section and the wall-clock timestamp are presentation glue. -/
structure Report where
  total_flagged : Nat
  high_risk : Nat
  medium_risk : Nat
  low_risk : Nat
  penny_stocks : Nat
  stale_prices : Nat
  no_data : Nat
  tracking_pending : Nat
  securities : List Signal
deriving DecidableEq, Repr

/-- The report_data document assembled by generate_stale_price_report. -/
def mkReport (required : Nat) (confirmed : List Signal) (st : TrackingState) : Report :=
  { total_flagged := confirmed.length
    high_risk := (confirmed.filter (fun s => s.risk_level == Risk.high)).length
    medium_risk := (confirmed.filter (fun s => s.risk_level == Risk.medium)).length
    low_risk := (confirmed.filter (fun s => s.risk_level == Risk.low)).length
    penny_stocks := (confirmed.filter (fun s => s.is_penny_stock)).length
    stale_prices := (confirmed.filter (fun s => s.is_stale_price)).length
    no_data := (confirmed.filter (fun s => s.is_no_data)).length
    tracking_pending := (st.failure_counts.filter
      (fun p => decide (0 < p.2.count) && decide (p.2.count < required))).length
    securities := confirmed.take 50 }

/-- generate_stale_price_report: detection, the weekend early return, then
failure tracking. Returns the report (none on the weekend path) and the
tracking state as persisted after the run (unchanged on the weekend path). -/
def generate_stale_price_report (required weekday : Nat) (recent_dates : List Nat)
    (rows : List PriceRow) (watchlist : List String) (state : TrackingState)
    (today : Nat) : Option Report × TrackingState :=
  let all_flagged := detect_stale_prices weekday recent_dates rows watchlist
  if all_flagged.isEmpty && decide (5 ≤ weekday) then (none, state)
  else
    let res := apply_failure_tracking required state today all_flagged
    (some (mkReport required res.1 res.2), res.2)

/-- The status labels of the security validator. -/
inductive VStatus
  | delisted
  | suspended
  | at_risk
  | penny_stock
  | suspicious
  | monitor
  | active
  | unknown
deriving DecidableEq, Repr

/-- One row of the validator query: latest-first (close, volume, date). -/
structure VRow where
  close : ℚ
  volume : Nat
  rdate : Nat
deriving DecidableEq, Repr

/-- The classification chain of validate_security_status over a non-empty row
set. The same-price scan in the source is literally the Check-1 loop of the
detector with the same 0.0001 tolerance, so max_consecutive is reused. The
validator hardcodes its low-volume cutoff as 10000 and its no-data price
cutoff as 0.001. -/
def classifyRows (rows : List VRow) : VStatus :=
  let latest_price := (rows.map (fun r => r.close)).headD 0
  let avg_volume := avgVolume (rows.map (fun r => r.volume))
  let zero_vol_days := ((rows.map (fun r => r.volume)).filter (fun v => v == 0)).length
  let consecutive := max_consecutive (rows.map (fun r => r.close))
  if latest_price < 1/1000 then .delisted
  else if 5 ≤ zero_vol_days then .suspended
  else if latest_price < EXTREME_PENNY_THRESHOLD then .delisted
  else if latest_price < PENNY_STOCK_THRESHOLD ∧ avg_volume < 10000 then .at_risk
  else if latest_price < PENNY_STOCK_THRESHOLD then .penny_stock
  else if 10 ≤ consecutive then .suspicious
  else if 3 ≤ consecutive then .monitor
  else .active

/-- heuristic_validation: the fallback classification from the cached report
entry (its price, avg_volume and consecutive_days fields). -/
def heuristic_validation (price avg_volume : ℚ) (consecutive_days : Nat) : VStatus :=
  if price < 1/1000 then .delisted
  else if price < PENNY_STOCK_THRESHOLD ∧ avg_volume < 10000 then .at_risk
  else if price < PENNY_STOCK_THRESHOLD then .penny_stock
  else if 10 ≤ consecutive_days then .suspicious
  else .monitor

/-- validate_security_status: with the database available, empty history means
DELISTED and otherwise the row classification runs; without it, the cached
detector signal (when given) goes through heuristic_validation, else the
UNKNOWN default stands. -/
def validate_security_status (dbAvailable : Bool) (rows : List VRow)
    (stale_data_entry : Option Signal) : VStatus :=
  if dbAvailable then
    if rows.isEmpty then .delisted else classifyRows rows
  else
    match stale_data_entry with
    | some e => heuristic_validation e.price e.avg_volume e.consecutive_days
    | none => .unknown

/-- One entry of the removal log. -/
structure RemovalEntry where
  symbol : String
  rdate : Nat
  reason : String
  status : String
  last_price : ℚ
  watchlist : String
deriving DecidableEq, Repr

/-- The removal_log.json document. -/
structure RemovalLog where
  last_updated : Option Nat
  removals : List RemovalEntry
deriving DecidableEq, Repr

/-- log_removal from cleanup_recommendations: return unchanged when the symbol
is already logged, else append one entry and stamp last_updated (now stands
for the wall clock read for both the entry date and the stamp). -/
def log_removal (log : RemovalLog) (now : Nat) (symbol reason status : String)
    (last_price : ℚ) (watchlist : String) : RemovalLog :=
  if symbol ∈ log.removals.map (fun r => r.symbol) then log
  else
    { last_updated := some now
      removals := log.removals ++
        [{ symbol := symbol, rdate := now, reason := reason, status := status,
           last_price := last_price, watchlist := watchlist }] }

/-- First-match evaluation of an ordered rule table: the value of the first
rule whose condition holds, else the default. Used to state the ordered-rule
sentences of the spec. -/
def firstMatch {α : Type} : List (Bool × α) → α → α
  | [], d => d
  | (c, v) :: rest, d => if c then v else firstMatch rest d

/-- A run placed inside the close series with its immediate neighbours (when
they exist) not matching its endpoints: the decomposition the claim C3
premise describes. -/
def runBoundaryOk (pre run post : List ℚ) : Prop :=
  (∀ x ∈ pre.getLast?, ∀ y ∈ run.head?, priceMatch y x = false) ∧
  (∀ x ∈ run.getLast?, ∀ y ∈ post.head?, priceMatch y x = false)

/-- The risk-tier rule table as the spec states it, first matching rule wins,
in the stated order. -/
def specRiskTier (is_extreme_penny : Bool) (zero_vol_days : Nat) (is_penny : Bool)
    (avg_volume : ℚ) (is_stale : Bool) : Risk :=
  firstMatch
    [ (is_extreme_penny || decide (2 ≤ zero_vol_days), Risk.high),
      (is_penny && decide (avg_volume < LOW_VOLUME_THRESHOLD), Risk.high),
      (is_penny, Risk.medium),
      (is_stale && decide (avg_volume < LOW_VOLUME_THRESHOLD), Risk.medium) ]
    Risk.low

def c1sig : Signal :=
  { symbol := "AAA", price := 2, consecutive_days := 5, avg_volume := 5000,
    zero_volume_days := 0, risk_level := .low, reasons := [.staleRun 5],
    is_penny_stock := false, is_stale_price := true, is_no_data := false,
    last_date := some 20 }

def c1state : TrackingState :=
  { last_run := some 10
    failure_counts := [("OLD", { count := 2, first_flagged := 7, reason := .recovered })] }

def c5sig : Signal :=
  { symbol := "BBB", price := 3, consecutive_days := 6, avg_volume := 4000,
    zero_volume_days := 0, risk_level := .low, reasons := [.staleRun 6],
    is_penny_stock := false, is_stale_price := true, is_no_data := false,
    last_date := some 20 }

def c5entry : TrackingEntry :=
  { count := 3, first_flagged := 6, reason := .flagged [.staleRun 6] }

def c5state : TrackingState :=
  { last_run := some 10, failure_counts := [("BBB", c5entry)] }

/-- The ordered rule table of the validation classifier as the spec states it
(first matching rule wins): no observations, extreme-penny-equivalent 0.001,
five zero-volume days, extreme threshold 0.01, penny with low volume, penny
alone, run of ten, run of three, else active. -/
def specValidationStatus (rows : List VRow) : VStatus :=
  firstMatch
    [ (rows.isEmpty, VStatus.delisted),
      (decide ((rows.map (fun r => r.close)).headD 0 < 1/1000), VStatus.delisted),
      (decide (5 ≤ ((rows.map (fun r => r.volume)).filter (fun v => v == 0)).length),
        VStatus.suspended),
      (decide ((rows.map (fun r => r.close)).headD 0 < EXTREME_PENNY_THRESHOLD),
        VStatus.delisted),
      (decide ((rows.map (fun r => r.close)).headD 0 < PENNY_STOCK_THRESHOLD) &&
        decide (avgVolume (rows.map (fun r => r.volume)) < 10000), VStatus.at_risk),
      (decide ((rows.map (fun r => r.close)).headD 0 < PENNY_STOCK_THRESHOLD),
        VStatus.penny_stock),
      (decide (10 ≤ max_consecutive (rows.map (fun r => r.close))), VStatus.suspicious),
      (decide (3 ≤ max_consecutive (rows.map (fun r => r.close))), VStatus.monitor) ]
    VStatus.active

/-- The rule table the claim describes for the fallback: the same ordered
rules minus the zero-volume check, applied to the cached detector signal. -/
def specReducedStatus (price avg_volume : ℚ) (consecutive_days : Nat) : VStatus :=
  firstMatch
    [ (decide (price < 1/1000), VStatus.delisted),
      (decide (price < EXTREME_PENNY_THRESHOLD), VStatus.delisted),
      (decide (price < PENNY_STOCK_THRESHOLD) && decide (avg_volume < 10000),
        VStatus.at_risk),
      (decide (price < PENNY_STOCK_THRESHOLD), VStatus.penny_stock),
      (decide (10 ≤ consecutive_days), VStatus.suspicious),
      (decide (3 ≤ consecutive_days), VStatus.monitor) ]
    VStatus.active

/-- The rule table heuristic_validation actually implements: no second
extreme-threshold rule, no run-of-three rule, MONITOR as the default. -/
def specHeuristicStatus (price avg_volume : ℚ) (consecutive_days : Nat) : VStatus :=
  firstMatch
    [ (decide (price < 1/1000), VStatus.delisted),
      (decide (price < PENNY_STOCK_THRESHOLD) && decide (avg_volume < 10000),
        VStatus.at_risk),
      (decide (price < PENNY_STOCK_THRESHOLD), VStatus.penny_stock),
      (decide (10 ≤ consecutive_days), VStatus.suspicious) ]
    VStatus.monitor

def c6entry : TrackingEntry :=
  { count := 4, first_flagged := 1, reason := .flagged [.noRecentData] }

def c6state : TrackingState :=
  { last_run := some 2, failure_counts := [("DDD", c6entry)] }

def c7dates : List Nat := [20, 19, 18, 17, 16, 15, 14, 13, 12, 11]

def c7rows : List PriceRow :=
  [ { symbol := "OLD", rdate := 11, close := 2, volume := 100 },
    { symbol := "OLD", rdate := 12, close := 2, volume := 100 },
    { symbol := "OLD", rdate := 13, close := 2, volume := 100 },
    { symbol := "OLD", rdate := 14, close := 2, volume := 100 },
    { symbol := "OLD", rdate := 15, close := 2, volume := 100 } ]

def c7stale : Signal :=
  mkDetSignal "OLD" [11, 12, 13, 14, 15] [2, 2, 2, 2, 2] [100, 100, 100, 100, 100]

def c7nodata : Signal :=
  dataStoppedSignal "OLD" [2, 2, 2, 2, 2] [100, 100, 100, 100, 100] 15 20

def c3closes : List ℚ := [1, 1, 1, 1, 1, 1, 1, 2, 3, 3, 3, 3, 3, 4]

def c3pre : List ℚ := [1, 1, 1, 1, 1, 1, 1, 2]

def c3run : List ℚ := [3, 3, 3, 3, 3]

def c3post : List ℚ := [4]

def c3wcloses : List ℚ := [1, 2, 3, 4, 5]

def c4closes : List ℚ := [2, 2, 2, 2, 2]

def c4vols : List Nat := [100, 100, 100, 100, 100]

def c4dates : List Nat := [11, 12, 13, 14, 15]

theorem maxConsecutiveAux_eq (l : List ℚ) : ∀ prev cur maxC, 1 ≤ cur → cur ≤ maxC →
    maxConsecutiveAux prev cur maxC l = max maxC (max (cur + headBlock prev l) (maxStart l)) := by
  induction l with
  | nil =>
      intro prev cur maxC h1 h2
      simp only [maxConsecutiveAux, headBlock, maxStart]
      omega
  | cons c rest ih =>
      intro prev cur maxC h1 h2
      by_cases h : priceMatch c prev
      · rw [maxConsecutiveAux, if_pos h,
          ih c (cur + 1) (max maxC (cur + 1)) (by omega) (le_max_right _ _)]
        simp only [headBlock, if_pos h, maxStart]
        omega
      · rw [maxConsecutiveAux, if_neg h, ih c 1 maxC le_rfl (le_trans h1 h2)]
        simp only [headBlock, if_neg h, maxStart]
        omega

theorem max_consecutive_eq_maxStart (l : List ℚ) :
    max_consecutive l = max 1 (maxStart l) := by
  cases l with
  | nil => simp [max_consecutive, maxStart]
  | cons c rest =>
      rw [max_consecutive, maxConsecutiveAux_eq rest c 1 1 le_rfl le_rfl]
      simp only [maxStart]

theorem headBlock_ge_of_chain (t : List ℚ) : ∀ c post, chainB (c :: t) = true →
    t.length ≤ headBlock c (t ++ post) := by
  induction t with
  | nil => intro c post _; simp
  | cons b t' ih =>
      intro c post hchain
      simp only [chainB, Bool.and_eq_true] at hchain
      simp only [List.cons_append, headBlock, if_pos hchain.1, List.append_eq]
      have := ih b post hchain.2
      simp only [List.append_eq] at this
      simp only [List.length_cons]
      omega

theorem maxStart_ge_headBlock (pre : List ℚ) : ∀ c t,
    1 + headBlock c t ≤ maxStart (pre ++ c :: t) := by
  induction pre with
  | nil => intro c t; simp [maxStart]
  | cons p pre' ih =>
      intro c t
      simp only [List.cons_append, maxStart]
      exact le_max_of_le_right (ih c t)

/-- Any matching run inside the list bounds maxStart from below. -/
theorem maxStart_ge_run (l pre run post : List ℚ) (hdecomp : l = pre ++ run ++ post)
    (hchain : chainB run = true) (hne : run ≠ []) : run.length ≤ maxStart l := by
  obtain ⟨r, rt, rfl⟩ : ∃ r rt, run = r :: rt := by
    cases run with
    | nil => exact absurd rfl hne
    | cons r rt => exact ⟨r, rt, rfl⟩
  subst hdecomp
  have h1 : rt.length ≤ headBlock r (rt ++ post) := headBlock_ge_of_chain rt r post hchain
  have h2 : 1 + headBlock r (rt ++ post) ≤ maxStart (pre ++ r :: (rt ++ post)) :=
    maxStart_ge_headBlock pre r (rt ++ post)
  simp only [List.cons_append, List.append_assoc] at h2 ⊢
  simp only [List.length_cons]
  omega

theorem headBlock_realized (t : List ℚ) : ∀ c, ∃ u v, t = u ++ v ∧
    u.length = headBlock c t ∧ chainB (c :: u) = true := by
  induction t with
  | nil => intro c; exact ⟨[], [], rfl, rfl, rfl⟩
  | cons b t' ih =>
      intro c
      by_cases h : priceMatch b c
      · obtain ⟨u', v', hsplit, hlen, hchain⟩ := ih b
        refine ⟨b :: u', v', by simp [hsplit], ?_, ?_⟩
        · simp only [headBlock, if_pos h, List.length_cons]
          omega
        · simp only [chainB, Bool.and_eq_true]
          exact ⟨h, hchain⟩
      · exact ⟨[], b :: t', rfl, by simp [headBlock, if_neg h], rfl⟩

/-- maxStart is realized by an actual matching run inside the list. -/
theorem maxStart_realized (l : List ℚ) (hne : l ≠ []) :
    ∃ pre run post, l = pre ++ run ++ post ∧ chainB run = true ∧
      run.length = maxStart l := by
  induction l with
  | nil => exact absurd rfl hne
  | cons c rest ih =>
      rcases le_or_lt (maxStart rest) (1 + headBlock c rest) with hle | hlt
      · obtain ⟨u, v, hsplit, hlen, hchain⟩ := headBlock_realized rest c
        refine ⟨[], c :: u, v, by simp [hsplit], hchain, ?_⟩
        simp only [maxStart, List.length_cons]
        omega
      · have hrne : rest ≠ [] := by
          intro hnil
          rw [hnil] at hlt
          simp [maxStart] at hlt
        obtain ⟨pre', run', post', hsplit, hchain, hlen⟩ := ih hrne
        refine ⟨c :: pre', run', post', by simp [hsplit], hchain, ?_⟩
        simp only [maxStart]
        omega


theorem maxStart_le_of_strict (l : List ℚ) (h : strictlyChanging l = true) :
    maxStart l ≤ 1 := by
  induction l with
  | nil => simp [maxStart]
  | cons c rest ih =>
      have hhb : headBlock c rest = 0 := by
        cases rest with
        | nil => rfl
        | cons b rest' =>
            simp only [strictlyChanging, Bool.and_eq_true, Bool.not_eq_true'] at h
            simp [headBlock, h.1]
      have hrest : strictlyChanging rest = true := by
        cases rest with
        | nil => rfl
        | cons b rest' =>
            simp only [strictlyChanging, Bool.and_eq_true] at h
            exact h.2
      simp only [maxStart, hhb]
      have := ih hrest
      omega

theorem mlookup_nil (k : String) : mlookup [] k = none := rfl

theorem mlookup_cons (k' : String) (v : TrackingEntry) (rest : CountsMap) (k : String) :
    mlookup ((k', v) :: rest) k = if k' = k then some v else mlookup rest k := by
  by_cases h : k' = k <;> simp [mlookup, List.find?_cons, h]

theorem mlookup_dinsert_self (m : CountsMap) (k : String) (v : TrackingEntry) :
    mlookup (dinsert m k v) k = some v := by
  induction m with
  | nil => simp [dinsert, mlookup_cons]
  | cons p rest ih =>
      by_cases h : p.1 = k
      · simp [dinsert, h, mlookup_cons]
      · simp only [dinsert, beq_iff_eq, if_neg h]
        rw [show p = (p.1, p.2) from rfl, mlookup_cons, if_neg h]
        exact ih

theorem mlookup_dinsert_ne (m : CountsMap) (k : String) (v : TrackingEntry)
    (k' : String) (h : k ≠ k') : mlookup (dinsert m k v) k' = mlookup m k' := by
  induction m with
  | nil => simp [dinsert, mlookup_cons, h, mlookup_nil]
  | cons p rest ih =>
      by_cases hp : p.1 = k
      · simp only [dinsert, beq_iff_eq, if_pos hp]
        rw [mlookup_cons, if_neg h, show p = (p.1, p.2) from rfl, mlookup_cons, if_neg (hp ▸ h)]
      · simp only [dinsert, beq_iff_eq, if_neg hp]
        rw [show p = (p.1, p.2) from rfl, mlookup_cons, mlookup_cons]
        by_cases hp' : p.1 = k'
        · simp [hp']
        · simp only [if_neg hp']
          exact ih

theorem mlookup_dsetdefault_self (m : CountsMap) (k : String) (v : TrackingEntry) :
    mlookup (dsetdefault m k v) k = some ((mlookup m k).getD v) := by
  induction m with
  | nil => simp [dsetdefault, mlookup_cons, mlookup_nil]
  | cons p rest ih =>
      by_cases h : p.1 = k
      · simp only [dsetdefault, beq_iff_eq, if_pos h]
        rw [show p = (p.1, p.2) from rfl, mlookup_cons]
        simp [h]
      · simp only [dsetdefault, beq_iff_eq, if_neg h]
        rw [show p = (p.1, p.2) from rfl, mlookup_cons, mlookup_cons, if_neg h, if_neg h]
        exact ih

theorem mlookup_dsetdefault_ne (m : CountsMap) (k : String) (v : TrackingEntry)
    (k' : String) (h : k ≠ k') : mlookup (dsetdefault m k v) k' = mlookup m k' := by
  induction m with
  | nil => simp [dsetdefault, mlookup_cons, h, mlookup_nil]
  | cons p rest ih =>
      by_cases hp : p.1 = k
      · simp [dsetdefault, hp]
      · simp only [dsetdefault, beq_iff_eq, if_neg hp]
        rw [show p = (p.1, p.2) from rfl, mlookup_cons, mlookup_cons]
        by_cases hp' : p.1 = k'
        · simp [hp']
        · simp only [if_neg hp']
          exact ih

theorem insertFlagged_lookup_notmem (sigs : List Signal) : ∀ (prior : CountsMap)
    (today : Nat) (acc : CountsMap) (sym : String),
    sym ∉ sigs.map (fun s => s.symbol) →
    mlookup (insertFlagged prior today acc sigs) sym = mlookup acc sym := by
  induction sigs with
  | nil => intro prior today acc sym _; rfl
  | cons s rest ih =>
      intro prior today acc sym hmem
      simp only [List.map_cons, List.mem_cons, not_or] at hmem
      rw [insertFlagged, ih prior today _ sym hmem.2,
        mlookup_dinsert_ne _ _ _ _ (fun h => hmem.1 h.symm)]

theorem insertFlagged_lookup_mem (sigs : List Signal) : ∀ (prior : CountsMap)
    (today : Nat) (acc : CountsMap) (s : Signal),
    (sigs.map (fun s => s.symbol)).Nodup → s ∈ sigs →
    mlookup (insertFlagged prior today acc sigs) s.symbol =
      some (flagEntry prior today s) := by
  induction sigs with
  | nil => intro _ _ _ _ _ h; exact absurd h (List.not_mem_nil _)
  | cons a rest ih =>
      intro prior today acc s hnd hs
      simp only [List.map_cons, List.nodup_cons] at hnd
      rcases List.mem_cons.mp hs with rfl | hs'
      · rw [insertFlagged, insertFlagged_lookup_notmem rest prior today _ s.symbol hnd.1,
          mlookup_dinsert_self]
      · exact ih prior today _ s hnd.2 hs'

theorem flagEntry_count_pos (prior : CountsMap) (today : Nat) (s : Signal) :
    1 ≤ (flagEntry prior today s).count := by
  simp [flagEntry]

theorem insertFlagged_lookup_exists (sigs : List Signal) : ∀ (prior : CountsMap)
    (today : Nat) (acc : CountsMap) (sym : String),
    sym ∈ sigs.map (fun s => s.symbol) →
    ∃ e, mlookup (insertFlagged prior today acc sigs) sym = some e ∧ 1 ≤ e.count := by
  induction sigs with
  | nil => intro _ _ _ _ h; exact absurd h (List.not_mem_nil _)
  | cons a rest ih =>
      intro prior today acc sym hmem
      by_cases hr : sym ∈ rest.map (fun s => s.symbol)
      · exact ih prior today _ sym hr
      · have hsym : a.symbol = sym := by
          rcases List.mem_cons.mp hmem with h | h
          · exact h.symm
          · exact absurd h hr
        refine ⟨flagEntry prior today a, ?_, flagEntry_count_pos prior today a⟩
        rw [insertFlagged, insertFlagged_lookup_notmem rest prior today _ sym hr, ← hsym,
          mlookup_dinsert_self]

theorem addRecovered_lookup_flagged (prior : CountsMap) : ∀ (flagged : List String)
    (acc : CountsMap) (sym : String), sym ∈ flagged →
    mlookup (addRecovered flagged prior acc) sym = mlookup acc sym := by
  induction prior with
  | nil => intro _ _ _ _; rfl
  | cons p rest ih =>
      intro flagged acc sym hmem
      rw [show p = (p.1, p.2) from rfl, addRecovered]
      by_cases hp : p.1 ∈ flagged
      · rw [if_pos hp]; exact ih flagged acc sym hmem
      · rw [if_neg hp, ih flagged _ sym hmem,
          mlookup_dsetdefault_ne _ _ _ _ (fun h => hp (by rw [h]; exact hmem))]

theorem addRecovered_preserve_some (prior : CountsMap) : ∀ (flagged : List String)
    (acc : CountsMap) (sym : String) (v : TrackingEntry), mlookup acc sym = some v →
    mlookup (addRecovered flagged prior acc) sym = some v := by
  induction prior with
  | nil => intro _ _ _ _ h; exact h
  | cons p rest ih =>
      intro flagged acc sym v hacc
      rw [show p = (p.1, p.2) from rfl, addRecovered]
      by_cases hp : p.1 ∈ flagged
      · rw [if_pos hp]; exact ih flagged acc sym v hacc
      · rw [if_neg hp]
        refine ih flagged _ sym v ?_
        by_cases hps : p.1 = sym
        · rw [hps, mlookup_dsetdefault_self, hacc]; rfl
        · rw [mlookup_dsetdefault_ne _ _ _ _ hps, hacc]

theorem addRecovered_lookup_recovered (prior : CountsMap) : ∀ (flagged : List String)
    (acc : CountsMap) (sym : String) (e : TrackingEntry),
    mlookup prior sym = some e → sym ∉ flagged → mlookup acc sym = none →
    mlookup (addRecovered flagged prior acc) sym =
      some { count := 0, first_flagged := e.first_flagged, reason := .recovered } := by
  induction prior with
  | nil => intro _ _ _ _ h; simp [mlookup_nil] at h
  | cons p rest ih =>
      intro flagged acc sym e hprior hflag hacc
      rw [show p = (p.1, p.2) from rfl] at hprior ⊢
      rw [mlookup_cons] at hprior
      rw [addRecovered]
      by_cases hps : p.1 = sym
      · rw [if_pos hps] at hprior
        rw [hps, if_neg hflag]
        have hset : mlookup (dsetdefault acc sym
            { count := 0, first_flagged := p.2.first_flagged, reason := .recovered }) sym =
            some { count := 0, first_flagged := p.2.first_flagged, reason := .recovered } := by
          rw [mlookup_dsetdefault_self, hacc]; rfl
        rw [Option.some_inj] at hprior
        rw [← hprior]
        exact addRecovered_preserve_some rest flagged _ sym _ hset
      · rw [if_neg hps] at hprior
        by_cases hp : p.1 ∈ flagged
        · rw [if_pos hp]; exact ih flagged acc sym e hprior hflag hacc
        · rw [if_neg hp]
          refine ih flagged _ sym e hprior hflag ?_
          rw [mlookup_dsetdefault_ne _ _ _ _ hps, hacc]

/-- The entry the saved state holds for a symbol flagged this run (signal
symbols assumed pairwise distinct, as detection emits at most one stale/penny
record per symbol). -/
theorem apply_lookup_flagged (required : Nat) (state : TrackingState) (today : Nat)
    (sigs : List Signal) (s : Signal) (hnd : (sigs.map (fun s => s.symbol)).Nodup)
    (hs : s ∈ sigs) :
    mlookup (apply_failure_tracking required state today sigs).2.failure_counts s.symbol =
      some (flagEntry state.failure_counts today s) := by
  show mlookup (addRecovered _ _ _) s.symbol = _
  rw [addRecovered_lookup_flagged _ _ _ _ (List.mem_map_of_mem (fun s => s.symbol) hs),
    insertFlagged_lookup_mem sigs _ today [] s hnd hs]

/-- The entry the saved state holds for a tracked symbol not flagged this run. -/
theorem apply_lookup_recovered (required : Nat) (state : TrackingState) (today : Nat)
    (sigs : List Signal) (sym : String) (e : TrackingEntry)
    (he : mlookup state.failure_counts sym = some e)
    (hout : sym ∉ sigs.map (fun s => s.symbol)) :
    mlookup (apply_failure_tracking required state today sigs).2.failure_counts sym =
      some { count := 0, first_flagged := e.first_flagged, reason := .recovered } := by
  show mlookup (addRecovered _ _ _) sym = _
  exact addRecovered_lookup_recovered _ _ _ sym e he hout
    (insertFlagged_lookup_notmem sigs _ today [] sym hout)

theorem apply_count_flagged_pos (required : Nat) (state : TrackingState) (today : Nat)
    (sigs : List Signal) (sym : String) (hmem : sym ∈ sigs.map (fun s => s.symbol)) :
    1 ≤ countOf (apply_failure_tracking required state today sigs).2.failure_counts sym := by
  obtain ⟨e, he, hc⟩ := insertFlagged_lookup_exists sigs state.failure_counts today [] sym hmem
  have : mlookup (apply_failure_tracking required state today sigs).2.failure_counts sym =
      some e := by
    show mlookup (addRecovered _ _ _) sym = _
    rw [addRecovered_lookup_flagged _ _ _ _ hmem, he]
  rw [countOf, this]
  exact hc

theorem apply_count_flagged (required : Nat) (state : TrackingState) (today : Nat)
    (sigs : List Signal) (sym : String) (hnd : (sigs.map (fun s => s.symbol)).Nodup)
    (hmem : sym ∈ sigs.map (fun s => s.symbol)) :
    countOf (apply_failure_tracking required state today sigs).2.failure_counts sym =
      countOf state.failure_counts sym + 1 := by
  obtain ⟨s, hs, rfl⟩ := List.mem_map.mp hmem
  rw [countOf, apply_lookup_flagged required state today sigs s hnd hs]
  rfl

/-- The confirmed list is the filter of the signal list by the updated count
reaching the threshold (the returned state holds exactly the updated counts). -/
theorem apply_confirmed_spec (required : Nat) (state : TrackingState) (today : Nat)
    (sigs : List Signal) :
    (apply_failure_tracking required state today sigs).1 = sigs.filter
      (fun s => decide (required ≤
        countOf (apply_failure_tracking required state today sigs).2.failure_counts s.symbol)) :=
  rfl

theorem runSequence_count (required : Nat) (runs : List (Nat × List Signal)) :
    ∀ (st : TrackingState) (sym : String),
    (∀ r ∈ runs, (r.2.map (fun s => s.symbol)).Nodup ∧ sym ∈ r.2.map (fun s => s.symbol)) →
    countOf (runSequence required st runs).failure_counts sym =
      countOf st.failure_counts sym + runs.length := by
  induction runs with
  | nil => intro st sym _; simp [runSequence]
  | cons r rest ih =>
      intro st sym h
      have hr := h r (List.mem_cons_self r rest)
      rw [runSequence, ih _ sym (fun r' hr' => h r' (List.mem_cons_of_mem r hr')),
        apply_count_flagged required st r.1 r.2 sym hr.1 hr.2, List.length_cons]
      omega

theorem filter_sublist_mono {α : Type} (p q : α → Bool) (l : List α)
    (h : ∀ a ∈ l, p a = true → q a = true) : List.Sublist (l.filter p) (l.filter q) := by
  induction l with
  | nil => simp
  | cons a t ih =>
      have iht := ih (fun b hb hpb => h b (List.mem_cons_of_mem a hb) hpb)
      by_cases hp : p a = true
      · have hq := h a (List.mem_cons_self a t) hp
        simp only [List.filter_cons, hp, hq, if_pos]
        exact List.Sublist.cons₂ a iht
      · rw [List.filter_cons, if_neg hp]
        by_cases hq : q a = true
        · rw [List.filter_cons, if_pos hq]
          exact List.Sublist.cons a iht
        · rw [List.filter_cons, if_neg hq]
          exact iht

/-- C1: the confirmation step gives every flagged symbol the prior count plus
one (0 when untracked), keeps a prior first-flagged date (else today) and
records the joined signal reasons; every tracked symbol absent from the signal
list is reset to count exactly 0 (kept, not deleted) with its first-flagged
date preserved and the Recovered sentinel as reason; consequently a symbol
starting at count 0 and flagged on M consecutive eligible runs ends with count
M, and one unflagged run resets it to 0 regardless of the prior value. -/
theorem C1_counter_update (required today : Nat) (state : TrackingState)
    (sigs : List Signal) (hnd : (sigs.map (fun s => s.symbol)).Nodup) :
    (∀ s ∈ sigs,
      mlookup (apply_failure_tracking required state today sigs).2.failure_counts s.symbol =
        some { count := countOf state.failure_counts s.symbol + 1
               first_flagged := firstFlaggedOf state.failure_counts s.symbol today
               reason := TrackReason.flagged s.reasons }) ∧
    (∀ sym e, mlookup state.failure_counts sym = some e →
      sym ∉ sigs.map (fun s => s.symbol) →
      mlookup (apply_failure_tracking required state today sigs).2.failure_counts sym =
        some { count := 0, first_flagged := e.first_flagged,
               reason := TrackReason.recovered }) ∧
    (∀ (runs : List (Nat × List Signal)) (sym : String),
      countOf state.failure_counts sym = 0 →
      (∀ r ∈ runs, (r.2.map (fun s => s.symbol)).Nodup ∧ sym ∈ r.2.map (fun s => s.symbol)) →
      countOf (runSequence required state runs).failure_counts sym = runs.length) := by
  refine ⟨?_, ?_, ?_⟩
  · intro s hs
    exact apply_lookup_flagged required state today sigs s hnd hs
  · intro sym e he hout
    exact apply_lookup_recovered required state today sigs sym e he hout
  · intro runs sym h0 hruns
    rw [runSequence_count required runs state sym hruns, h0]
    omega

/-- Witness for C1 at a concrete input: one flagged symbol previously
untracked gets count 1 and first-flagged today. -/
theorem C1_counter_update_witness :
    mlookup (apply_failure_tracking 5 c1state 11 [c1sig]).2.failure_counts c1sig.symbol =
      some { count := countOf c1state.failure_counts c1sig.symbol + 1
             first_flagged := firstFlaggedOf c1state.failure_counts c1sig.symbol 11
             reason := TrackReason.flagged c1sig.reasons } :=
  (C1_counter_update 5 11 c1state [c1sig] (by simp)).1 c1sig (by simp)

/-- C2: every security in the confirmed output of the confirmation step has an
updated tracking count of at least the required-consecutive-failures value;
and with that value set to 1 the confirmed output is exactly the raw signal
list of the run. -/
theorem C2_confirmed_meets_threshold (required today : Nat) (state : TrackingState)
    (sigs : List Signal) :
    (∀ s ∈ (apply_failure_tracking required state today sigs).1,
      required ≤
        countOf (apply_failure_tracking required state today sigs).2.failure_counts s.symbol) ∧
    (apply_failure_tracking 1 state today sigs).1 = sigs := by
  constructor
  · intro s hs
    rw [apply_confirmed_spec] at hs
    exact of_decide_eq_true (List.mem_filter.mp hs).2
  · rw [apply_confirmed_spec]
    apply List.filter_eq_self.mpr
    intro s hs
    exact decide_eq_true
      (apply_count_flagged_pos 1 state today sigs s.symbol
        (List.mem_map_of_mem (fun s => s.symbol) hs))

/-- C5 as amended: re-running the confirmation step on the same signal list
and day, the second call reading the state the first persisted, confirms a
superset of the first call (the extra increment can push boundary symbols over
the threshold, so equality of the two emitted sets does not hold in general). -/
theorem C5_rerun_confirmed_superset (required today : Nat) (state : TrackingState)
    (sigs : List Signal) (hnd : (sigs.map (fun s => s.symbol)).Nodup) :
    List.Sublist (apply_failure_tracking required state today sigs).1
      (apply_failure_tracking required
        (apply_failure_tracking required state today sigs).2 today sigs).1 := by
  rw [apply_confirmed_spec required state today sigs,
    apply_confirmed_spec required (apply_failure_tracking required state today sigs).2 today sigs]
  apply filter_sublist_mono
  intro s hs hp
  have h1 := of_decide_eq_true hp
  have h2 := apply_count_flagged required (apply_failure_tracking required state today sigs).2
    today sigs s.symbol hnd (List.mem_map_of_mem (fun s => s.symbol) hs)
  have h3 := apply_count_flagged required state today sigs s.symbol hnd
    (List.mem_map_of_mem (fun s => s.symbol) hs)
  exact decide_eq_true (by omega)

/-- Counterexample to C5 as stated: with the required count at its configured
value 5 and a symbol previously at count 3, the first call (count 4) confirms
nothing while the immediate re-run (count 5) confirms the symbol, so the two
emitted confirmed sets differ. -/
theorem C5_counterexample :
    (apply_failure_tracking CONSECUTIVE_FAILURES_REQUIRED c5state 11 [c5sig]).1 = [] ∧
    (apply_failure_tracking CONSECUTIVE_FAILURES_REQUIRED
      (apply_failure_tracking CONSECUTIVE_FAILURES_REQUIRED c5state 11 [c5sig]).2
      11 [c5sig]).1 = [c5sig] := by
  constructor <;> rfl

/-- Witness for C5 at a concrete input. -/
theorem C5_rerun_confirmed_superset_witness :
    List.Sublist (apply_failure_tracking 5 c5state 11 [c5sig]).1
      (apply_failure_tracking 5 (apply_failure_tracking 5 c5state 11 [c5sig]).2
        11 [c5sig]).1 :=
  C5_rerun_confirmed_superset 5 11 c5state [c5sig] (by simp)

theorem analyzeSymbol_some_elim {sym : String} {dates : List Nat} {closes : List ℚ}
    {volumes : List Nat} {sig : Signal}
    (h : analyzeSymbol sym dates closes volumes = some sig) :
    ¬ closes.length < 5 ∧
    (STALE_DAYS_THRESHOLD ≤ max_consecutive closes ∨
      closes.getLastD 0 < PENNY_STOCK_THRESHOLD) ∧
    sig = mkDetSignal sym dates closes volumes := by
  by_cases h1 : closes.length < 5
  · rw [analyzeSymbol, if_pos h1] at h
    exact absurd h (by simp)
  · rw [analyzeSymbol, if_neg h1] at h
    by_cases h2 : (!decide (STALE_DAYS_THRESHOLD ≤ max_consecutive closes) &&
        !decide (closes.getLastD 0 < PENNY_STOCK_THRESHOLD)) = true
    · rw [if_pos h2] at h
      exact absurd h (by simp)
    · rw [if_neg h2] at h
      refine ⟨h1, ?_, (Option.some_inj.mp h).symm⟩
      simp only [Bool.and_eq_true, Bool.not_eq_true', decide_eq_false_iff_not, not_and,
        not_not] at h2
      by_cases hs : STALE_DAYS_THRESHOLD ≤ max_consecutive closes
      · exact Or.inl hs
      · exact Or.inr (h2 (by simpa using hs))

/-- C3 as amended: for a close series of at least 5 observations, a strictly
changing series gives max_consecutive exactly 1 and no stale flag; a run of L
pairwise-matching closes with non-matching neighbours and L at least the
stale-days threshold forces the stale flag (any signal the per-symbol loop
emits for the series carries is_stale_price = true) and max_consecutive at
least L, with equality exactly when no matching run in the series is longer
than L (the original claim asserted equality unconditionally). -/
theorem C3_stale_run_detection (closes : List ℚ) (h5 : 5 ≤ closes.length) :
    (strictlyChanging closes = true →
      max_consecutive closes = 1 ∧ ¬ STALE_DAYS_THRESHOLD ≤ max_consecutive closes) ∧
    (∀ pre run post, closes = pre ++ run ++ post → chainB run = true →
      STALE_DAYS_THRESHOLD ≤ run.length → runBoundaryOk pre run post →
      STALE_DAYS_THRESHOLD ≤ max_consecutive closes ∧
      (∀ sym dates volumes sig, analyzeSymbol sym dates closes volumes = some sig →
        sig.is_stale_price = true) ∧
      run.length ≤ max_consecutive closes ∧
      ((∀ pre2 run2 post2, closes = pre2 ++ run2 ++ post2 → chainB run2 = true →
          run2.length ≤ run.length) →
        max_consecutive closes = run.length)) := by
  constructor
  · intro hstrict
    have h1 := maxStart_le_of_strict closes hstrict
    have h2 := max_consecutive_eq_maxStart closes
    have hSDT : STALE_DAYS_THRESHOLD = 5 := rfl
    constructor
    · omega
    · omega
  · intro pre run post hdecomp hchain hlen _hbound
    have hne : run ≠ [] := by
      intro hnil
      rw [hnil] at hlen
      simp [STALE_DAYS_THRESHOLD] at hlen
    have hlow : run.length ≤ maxStart closes := maxStart_ge_run closes pre run post hdecomp hchain hne
    have hchar := max_consecutive_eq_maxStart closes
    have hstale : STALE_DAYS_THRESHOLD ≤ max_consecutive closes := by
      have hSDT : STALE_DAYS_THRESHOLD = 5 := rfl
      omega
    refine ⟨hstale, ?_, by omega, ?_⟩
    · intro sym dates volumes sig hsig
      obtain ⟨_, _, rfl⟩ := analyzeSymbol_some_elim hsig
      simp only [mkDetSignal]
      exact decide_eq_true hstale
    · intro hmax
      have hclne : closes ≠ [] := by
        intro hnil
        rw [hnil] at h5
        simp at h5
      obtain ⟨pre2, run2, post2, hd2, hc2, hl2⟩ := maxStart_realized closes hclne
      have hup : maxStart closes ≤ run.length := hl2 ▸ hmax pre2 run2 post2 hd2 hc2
      have hSDT : STALE_DAYS_THRESHOLD = 5 := rfl
      omega

/-- Counterexample to C3 as stated: the series
1,1,1,1,1,1,1,2,3,3,3,3,3,4 contains the bounded run 3,3,3,3,3 of length 5
(at the stale-days threshold, neighbours 2 and 4 not matching), yet
max_consecutive is 7, not 5, because of the longer run of ones. -/
theorem C3_counterexample :
    5 ≤ c3closes.length ∧
    c3closes = c3pre ++ c3run ++ c3post ∧
    chainB c3run = true ∧
    STALE_DAYS_THRESHOLD ≤ c3run.length ∧
    runBoundaryOk c3pre c3run c3post ∧
    max_consecutive c3closes ≠ c3run.length := by
  refine ⟨by norm_num [c3closes], by norm_num [c3closes, c3pre, c3run, c3post], ?_, ?_, ?_, ?_⟩
  · norm_num [c3run, chainB, priceMatch, PRICE_TOLERANCE]
  · norm_num [c3run, STALE_DAYS_THRESHOLD]
  · constructor
    · intro x hx y hy
      norm_num [c3pre, c3run] at hx hy
      rw [← hx, ← hy]
      norm_num [priceMatch, PRICE_TOLERANCE]
    · intro x hx y hy
      norm_num [c3pre, c3run, c3post] at hx hy
      rw [← hx, ← hy]
      norm_num [priceMatch, PRICE_TOLERANCE]
  · norm_num [c3closes, c3run, max_consecutive, maxConsecutiveAux, priceMatch, PRICE_TOLERANCE]

/-- Witness for C3 at a concrete input: a strictly changing series. -/
theorem C3_stale_run_detection_witness :
    max_consecutive c3wcloses = 1 ∧ ¬ STALE_DAYS_THRESHOLD ≤ max_consecutive c3wcloses :=
  (C3_stale_run_detection c3wcloses (by norm_num [c3wcloses])).1
    (by norm_num [c3wcloses, strictlyChanging, priceMatch, PRICE_TOLERANCE])

theorem riskLevel_eq_specRiskTier (is_extreme_penny : Bool) (zero_vol_days : Nat)
    (is_penny : Bool) (avg_volume : ℚ) (is_stale : Bool) :
    riskLevel is_extreme_penny zero_vol_days is_penny avg_volume is_stale =
      specRiskTier is_extreme_penny zero_vol_days is_penny avg_volume is_stale := rfl

/-- C4: every signal the per-symbol loop emits gets its risk tier from the
first matching rule of the ordered table (extreme-penny or two zero-volume
days HIGH; penny and low volume HIGH; penny MEDIUM; stale and low volume
MEDIUM; else LOW), its reason list in the fixed order (extreme-penny else
penny, then stale run, then zero-volume) and that list non-empty. -/
theorem C4_risk_and_reasons (sym : String) (dates : List Nat) (closes : List ℚ)
    (volumes : List Nat) (sig : Signal)
    (h : analyzeSymbol sym dates closes volumes = some sig) :
    sig.risk_level =
      specRiskTier (decide (sig.price < EXTREME_PENNY_THRESHOLD)) sig.zero_volume_days
        sig.is_penny_stock sig.avg_volume sig.is_stale_price ∧
    sig.reasons =
      ((if decide (sig.price < EXTREME_PENNY_THRESHOLD) then [Reason.extremePenny sig.price]
        else if sig.is_penny_stock then [Reason.pennyStock sig.price] else []) ++
       (if sig.is_stale_price then [Reason.staleRun (max_consecutive closes)] else []) ++
       (if 2 ≤ sig.zero_volume_days then [Reason.zeroVol sig.zero_volume_days] else [])) ∧
    sig.reasons ≠ [] := by
  obtain ⟨h5, hgate, rfl⟩ := analyzeSymbol_some_elim h
  refine ⟨?_, ?_, ?_⟩
  · simp only [mkDetSignal, riskLevel_eq_specRiskTier]
  · simp only [mkDetSignal, buildReasons]
  · simp only [mkDetSignal, buildReasons]
    rcases hgate with hs | hp
    · intro hemp
      rw [if_pos (decide_eq_true hs)] at hemp
      rcases List.append_eq_nil.mp hemp with ⟨h1, _⟩
      rcases List.append_eq_nil.mp h1 with ⟨_, h2⟩
      simp at h2
    · intro hemp
      rcases List.append_eq_nil.mp hemp with ⟨h1, _⟩
      rcases List.append_eq_nil.mp h1 with ⟨h2, _⟩
      by_cases hx : decide (closes.getLastD 0 < EXTREME_PENNY_THRESHOLD) = true
      · rw [if_pos hx] at h2
        simp at h2
      · rw [if_neg hx, if_pos (decide_eq_true hp)] at h2
        simp at h2

/-- Witness for C4 at a concrete input: five equal closes at price 2. -/
theorem C4_risk_and_reasons_witness :
    (mkDetSignal "CCC" c4dates c4closes c4vols).reasons ≠ [] :=
  (C4_risk_and_reasons "CCC" c4dates c4closes c4vols
    (mkDetSignal "CCC" c4dates c4closes c4vols)
    (by norm_num [analyzeSymbol, c4closes, max_consecutive, maxConsecutiveAux,
      priceMatch, PRICE_TOLERANCE, PENNY_STOCK_THRESHOLD, STALE_DAYS_THRESHOLD])).2.2

/-- C9: a weekend invocation detects nothing and the pipeline returns before
the confirmation step, leaving the persisted tracking state untouched. -/
theorem C9_weekend_untouched (required weekday : Nat) (recent_dates : List Nat)
    (rows : List PriceRow) (watchlist : List String) (state : TrackingState)
    (today : Nat) (hw : 5 ≤ weekday) :
    detect_stale_prices weekday recent_dates rows watchlist = [] ∧
    generate_stale_price_report required weekday recent_dates rows watchlist state today =
      (none, state) := by
  have hdet : detect_stale_prices weekday recent_dates rows watchlist = [] := by
    rw [detect_stale_prices, if_pos hw]
  refine ⟨hdet, ?_⟩
  rw [generate_stale_price_report, hdet]
  simp [hw]

/-- Witness for C9 at a concrete input: a Saturday run. -/
theorem C9_weekend_untouched_witness :
    detect_stale_prices 5 [] [] [] = [] ∧
    generate_stale_price_report 5 5 [] [] [] { last_run := none, failure_counts := [] } 0 =
      (none, { last_run := none, failure_counts := [] }) :=
  C9_weekend_untouched 5 5 [] [] [] { last_run := none, failure_counts := [] } 0 (by decide)

/-- C6: on a business day where detection returns an empty list because fewer
than five recent trading dates exist, the pipeline still applies failure
tracking to the empty list and persists it: every previously tracked symbol
is reset to count exactly 0 with the Recovered reason and its first-flagged
date preserved — unlike the weekend path, which leaves the state alone. -/
theorem C6_insufficient_history_resets (required weekday : Nat) (recent_dates : List Nat)
    (rows : List PriceRow) (watchlist : List String) (state : TrackingState)
    (today : Nat) (hw : weekday < 5) (hdates : recent_dates.length < 5) :
    detect_stale_prices weekday recent_dates rows watchlist = [] ∧
    (generate_stale_price_report required weekday recent_dates rows watchlist state today).1 ≠
      none ∧
    (generate_stale_price_report required weekday recent_dates rows watchlist state today).2 =
      (apply_failure_tracking required state today []).2 ∧
    (generate_stale_price_report required weekday recent_dates rows watchlist
      state today).2.last_run = some today ∧
    (∀ sym e, mlookup state.failure_counts sym = some e →
      mlookup (generate_stale_price_report required weekday recent_dates rows watchlist
          state today).2.failure_counts sym =
        some { count := 0, first_flagged := e.first_flagged,
               reason := TrackReason.recovered }) := by
  have hdet : detect_stale_prices weekday recent_dates rows watchlist = [] := by
    rw [detect_stale_prices, if_neg (by omega), if_pos hdates]
  have hgen : generate_stale_price_report required weekday recent_dates rows watchlist
      state today =
      (some (mkReport required (apply_failure_tracking required state today []).1
        (apply_failure_tracking required state today []).2),
       (apply_failure_tracking required state today []).2) := by
    rw [generate_stale_price_report, hdet]
    simp [Nat.not_le.mpr hw]
  refine ⟨hdet, ?_, ?_, ?_, ?_⟩
  · rw [hgen]
    simp
  · rw [hgen]
  · rw [hgen]
    rfl
  · intro sym e he
    rw [hgen]
    exact apply_lookup_recovered required state today [] sym e he (by simp)

/-- Witness for C6 at a concrete input: a Monday run with one recent date and
one tracked symbol. -/
theorem C6_insufficient_history_resets_witness :
    mlookup (generate_stale_price_report 5 0 [3] [] [] c6state 9).2.failure_counts "DDD" =
      some { count := 0, first_flagged := 1, reason := TrackReason.recovered } :=
  (C6_insufficient_history_resets 5 0 [3] [] [] c6state 9 (by decide)
    (by decide)).2.2.2.2 "DDD" c6entry rfl

theorem firstOccs_subset : ∀ (l : List String), ∀ s ∈ firstOccs l, s ∈ l
  | [] => by
      intro s hs
      rw [firstOccs] at hs
      exact absurd hs (List.not_mem_nil _)
  | a :: rest => by
      intro s hs
      rw [firstOccs] at hs
      rcases List.mem_cons.mp hs with rfl | hs'
      · exact List.mem_cons_self _ _
      · exact List.mem_cons_of_mem a
          (List.mem_of_mem_filter (firstOccs_subset (rest.filter (fun t => !(t == a))) s hs'))
termination_by l => l.length
decreasing_by
  simp only [List.length_cons]
  exact Nat.lt_succ_of_le (List.length_filter_le _ _)

theorem detect_mem_elim {weekday : Nat} {recent_dates : List Nat} {rows : List PriceRow}
    {watchlist : List String} {sig : Signal}
    (h : sig ∈ detect_stale_prices weekday recent_dates rows watchlist) :
    sig ∈ detectLoop1 rows ∨ sig ∈ detectLoop3 recent_dates rows watchlist := by
  rw [detect_stale_prices] at h
  by_cases h1 : 5 ≤ weekday
  · rw [if_pos h1] at h
    exact absurd h (List.not_mem_nil _)
  · rw [if_neg h1] at h
    by_cases h2 : recent_dates.length < 5
    · rw [if_pos h2] at h
      exact absurd h (List.not_mem_nil _)
    · rw [if_neg h2] at h
      exact List.mem_append.mp ((List.mergeSort_perm _ detectSortLe).mem_iff.mp h)

theorem detectLoop1_flags {rows : List PriceRow} {sig : Signal}
    (h : sig ∈ detectLoop1 rows) :
    sig.is_no_data = false ∧ sig.symbol ∈ rows.map (fun r => r.symbol) := by
  rw [detectLoop1] at h
  obtain ⟨sym, hsym, hf⟩ := List.mem_filterMap.mp h
  obtain ⟨-, -, rfl⟩ := analyzeSymbol_some_elim hf
  refine ⟨by simp [mkDetSignal], ?_⟩
  show sym ∈ rows.map (fun r => r.symbol)
  exact firstOccs_subset _ sym hsym

theorem detectLoop3_flags {recent_dates : List Nat} {rows : List PriceRow}
    {watchlist : List String} {sig : Signal}
    (h : sig ∈ detectLoop3 recent_dates rows watchlist) :
    sig.is_no_data = true ∧ sig.is_stale_price = false ∧ sig.is_penny_stock = false := by
  rw [detectLoop3] at h
  by_cases hw : watchlist.isEmpty
  · rw [if_pos hw] at h
    exact absurd h (List.not_mem_nil _)
  · rw [if_neg hw] at h
    obtain ⟨sym, hsym, hf⟩ := List.mem_filterMap.mp h
    split at hf
    · split at hf
      · obtain rfl := Option.some_inj.mp hf
        exact ⟨rfl, rfl, rfl⟩
      · exact absurd hf (by simp)
    · obtain rfl := Option.some_inj.mp hf
      exact ⟨rfl, rfl, rfl⟩

/-- C7 as amended: in every detection output, each signal record keeps the
no-data flag mutually exclusive with the stale and penny flags, and the
stale/penny analysis only runs for symbols that have rows in the recent
window; exclusivity holds per record, not per symbol — a symbol whose data is
present but outdated can contribute one stale/penny record and one no-data
record to the same output. -/
theorem C7_flag_exclusivity (weekday : Nat) (recent_dates : List Nat)
    (rows : List PriceRow) (watchlist : List String) (sig : Signal)
    (hsig : sig ∈ detect_stale_prices weekday recent_dates rows watchlist) :
    (sig.is_no_data = true → sig.is_stale_price = false ∧ sig.is_penny_stock = false) ∧
    (sig.is_stale_price = true ∨ sig.is_penny_stock = true → sig.is_no_data = false) ∧
    (sig.is_no_data = false → sig.symbol ∈ rows.map (fun r => r.symbol)) := by
  rcases detect_mem_elim hsig with h | h
  · obtain ⟨hnd, hmem⟩ := detectLoop1_flags h
    refine ⟨?_, fun _ => hnd, fun _ => hmem⟩
    intro hh
    rw [hnd] at hh
    exact absurd hh (by simp)
  · obtain ⟨hnd, hst, hpn⟩ := detectLoop3_flags h
    refine ⟨fun _ => ⟨hst, hpn⟩, ?_, ?_⟩
    · rintro (hh | hh)
      · rw [hst] at hh
        exact absurd hh (by simp)
      · rw [hpn] at hh
        exact absurd hh (by simp)
    · intro hh
      rw [hnd] at hh
      exact absurd hh (by simp)

theorem c7symbols_eval : firstOccs (c7rows.map (fun r => r.symbol)) = ["OLD"] := by
  simp [c7rows, firstOccs]

theorem c7symbolRows_eval : symbolRows c7rows "OLD" = c7rows := by
  simp [symbolRows, c7rows]

theorem c7maxconsec_eval : max_consecutive [2, 2, 2, 2, 2] = 5 := by
  norm_num [max_consecutive, maxConsecutiveAux, priceMatch, PRICE_TOLERANCE]

theorem c7analyze_eval :
    analyzeSymbol "OLD" [11, 12, 13, 14, 15] [2, 2, 2, 2, 2] [100, 100, 100, 100, 100] =
      some c7stale := by
  rw [analyzeSymbol, c7stale]
  norm_num [c7maxconsec_eval, STALE_DAYS_THRESHOLD]

theorem c7loop1_eval : detectLoop1 c7rows = [c7stale] := by
  rw [detectLoop1, c7symbols_eval]
  simp only [List.filterMap_cons, List.filterMap_nil, c7symbolRows_eval]
  have h3 : c7rows.map (fun r => r.rdate) = [11, 12, 13, 14, 15] := by simp [c7rows]
  have h4 : c7rows.map (fun r => r.close) = [2, 2, 2, 2, 2] := by simp [c7rows]
  have h5 : c7rows.map (fun r => r.volume) = [100, 100, 100, 100, 100] := by simp [c7rows]
  rw [h3, h4, h5, c7analyze_eval]

theorem c7loop3_eval : detectLoop3 c7dates c7rows ["OLD"] = [c7nodata] := by
  rw [detectLoop3]
  simp only [List.isEmpty_cons, Bool.false_eq_true, if_false, List.filterMap_cons,
    List.filterMap_nil, c7symbols_eval, c7symbolRows_eval]
  have h3 : c7rows.map (fun r => r.rdate) = [11, 12, 13, 14, 15] := by simp [c7rows]
  have h4 : c7rows.map (fun r => r.close) = [2, 2, 2, 2, 2] := by simp [c7rows]
  have h5 : c7rows.map (fun r => r.volume) = [100, 100, 100, 100, 100] := by simp [c7rows]
  rw [h3, h4, h5]
  have hcut : recentCutoff c7dates = 16 := by simp [recentCutoff, c7dates]
  have hget : c7dates.getD 0 0 = 20 := by simp [c7dates]
  rw [hcut, hget]
  simp [c7nodata]

theorem c7detect_mem_iff (s : Signal) :
    s ∈ detect_stale_prices 0 c7dates c7rows ["OLD"] ↔ s ∈ [c7stale, c7nodata] := by
  rw [detect_stale_prices, if_neg (by norm_num), if_neg (by norm_num [c7dates]),
    c7loop1_eval, c7loop3_eval]
  exact (List.mergeSort_perm _ detectSortLe).mem_iff

/-- Counterexample to C7 as stated: the symbol OLD has five stale
observations whose latest date is older than the 5th most recent trading
date, so the same detection output holds a stale record and a no-data record
for it. -/
theorem C7_counterexample :
    c7stale ∈ detect_stale_prices 0 c7dates c7rows ["OLD"] ∧
    c7nodata ∈ detect_stale_prices 0 c7dates c7rows ["OLD"] ∧
    c7stale.symbol = "OLD" ∧ c7nodata.symbol = "OLD" ∧
    c7stale.is_stale_price = true ∧ c7nodata.is_no_data = true ∧
    c7stale.is_no_data = false := by
  refine ⟨(c7detect_mem_iff c7stale).mpr (by simp), (c7detect_mem_iff c7nodata).mpr (by simp),
    rfl, rfl, ?_, rfl, rfl⟩
  norm_num [c7stale, mkDetSignal, max_consecutive, maxConsecutiveAux, priceMatch,
    PRICE_TOLERANCE, STALE_DAYS_THRESHOLD]

/-- Witness for C7 at a concrete input. -/
theorem C7_flag_exclusivity_witness :
    (c7nodata.is_no_data = true →
      c7nodata.is_stale_price = false ∧ c7nodata.is_penny_stock = false) ∧
    (c7nodata.is_stale_price = true ∨ c7nodata.is_penny_stock = true →
      c7nodata.is_no_data = false) ∧
    (c7nodata.is_no_data = false → c7nodata.symbol ∈ c7rows.map (fun r => r.symbol)) :=
  C7_flag_exclusivity 0 c7dates c7rows ["OLD"] c7nodata
    ((c7detect_mem_iff c7nodata).mpr (by simp))

/-- C8 as amended: with the history source available the validator maps each
symbol to exactly one status by the stated ordered rule table; without it, the
fallback classifies the cached detector signal by a reduced table that drops
the zero-volume rule but also the 0.01 delisted rule and the run-of-three
rule, with MONITOR (never ACTIVE) as its default. -/
theorem C8_validator_rules (rows : List VRow) (stale_data_entry : Option Signal)
    (price avg_volume : ℚ) (consecutive_days : Nat) :
    validate_security_status true rows stale_data_entry = specValidationStatus rows ∧
    heuristic_validation price avg_volume consecutive_days =
      specHeuristicStatus price avg_volume consecutive_days ∧
    (∀ e : Signal, validate_security_status false rows (some e) =
      heuristic_validation e.price e.avg_volume e.consecutive_days) := by
  refine ⟨?_, ?_, fun e => rfl⟩
  · by_cases h : rows.isEmpty
    · simp [validate_security_status, specValidationStatus, firstMatch, h]
    · simp only [validate_security_status, specValidationStatus, firstMatch, h,
        Bool.false_eq_true, if_false, if_true, Bool.and_eq_true, decide_eq_true_eq]
      rfl
  · rw [heuristic_validation, specHeuristicStatus]
    simp only [firstMatch, Bool.and_eq_true, decide_eq_true_eq]

/-- Counterexample to the C8 fallback sentence as stated: an active-looking
cached signal (price 5, volume 50000, run 1) gets MONITOR from the fallback
while the same ordered rules minus the zero-volume check would give ACTIVE. -/
theorem C8_counterexample :
    heuristic_validation 5 50000 1 = VStatus.monitor ∧
    specReducedStatus 5 50000 1 = VStatus.active ∧
    heuristic_validation 5 50000 1 ≠ specReducedStatus 5 50000 1 := by
  have h1 : heuristic_validation 5 50000 1 = VStatus.monitor := by
    norm_num [heuristic_validation, PENNY_STOCK_THRESHOLD]
  have h2 : specReducedStatus 5 50000 1 = VStatus.active := by
    norm_num [specReducedStatus, firstMatch, PENNY_STOCK_THRESHOLD,
      EXTREME_PENNY_THRESHOLD]
  refine ⟨h1, h2, ?_⟩
  rw [h1, h2]
  decide

/-- C10: appending to the removal log is idempotent per symbol — an already
logged symbol leaves the whole log unchanged (first write wins, whatever the
new status or reason), and a new symbol appends exactly one entry. -/
theorem C10_log_removal_idempotent (log : RemovalLog) (now : Nat)
    (symbol reason status : String) (last_price : ℚ) (wl : String) :
    (symbol ∈ log.removals.map (fun r => r.symbol) →
      log_removal log now symbol reason status last_price wl = log) ∧
    (symbol ∉ log.removals.map (fun r => r.symbol) →
      (log_removal log now symbol reason status last_price wl).removals =
        log.removals ++ [⟨symbol, now, reason, status, last_price, wl⟩] ∧
      ((log_removal log now symbol reason status last_price wl).removals.filter
        (fun r => r.symbol == symbol)).length = 1) := by
  constructor
  · intro h
    rw [log_removal, if_pos h]
  · intro h
    have hrem : (log_removal log now symbol reason status last_price wl).removals =
        log.removals ++ [⟨symbol, now, reason, status, last_price, wl⟩] := by
      rw [log_removal, if_neg h]
    refine ⟨hrem, ?_⟩
    rw [hrem, List.filter_append]
    have h0 : log.removals.filter (fun r => r.symbol == symbol) = [] := by
      rw [List.filter_eq_nil_iff]
      intro r hr hrs
      exact h (List.mem_map.mpr ⟨r, hr, by simpa using hrs⟩)
    rw [h0]
    simp

end SPD
